import Mathlib

/-!
Shallow embedding of the RUC login front-end (`src/pages/Auth.tsx`).

Strings are modelled as lists of Unicode scalar values (`List Char`).
JavaScript's `String.prototype.length` counts UTF-16 code units, so the
embedding provides `jsLength` (code-unit count) and uses it wherever the
source (or the zod library it calls) reads `.length`; character-level
operations (`trim`, `replace`, regex tests) are modelled directly on the
character list.
-/

abbrev Str := List Char

/-- The set of characters removed by JavaScript `String.prototype.trim`:
whitespace and line terminators (ECMA-262 TrimString). -/
def isJsSpace (c : Char) : Bool :=
  ([9, 10, 11, 12, 13, 32, 160, 5760, 8192, 8193, 8194, 8195, 8196, 8197,
    8198, 8199, 8200, 8201, 8202, 8232, 8233, 8239, 8287, 12288, 65279] :
      List Nat).contains c.toNat

/-- JavaScript `s.trim()`: drop leading and trailing JS whitespace. -/
def jsTrim (s : Str) : Str :=
  ((s.dropWhile isJsSpace).reverse.dropWhile isJsSpace).reverse

/-- JavaScript `s.length`: number of UTF-16 code units (astral characters
count twice). -/
def jsLength (s : Str) : Nat :=
  (s.map (fun c => if c.toNat < 65536 then 1 else 2)).sum

/-- The test of the JS regex `/^\d+$/` (no flags): the whole string is a
non-empty run of ASCII decimal digits. -/
def rucRegex (t : Str) : Bool :=
  !t.isEmpty && t.all Char.isDigit

/- Constants of `Auth.tsx`. -/

def RUC_STORAGE_KEY : Str := "remembered_ruc".toList

def CURRENT_RUC_KEY : Str := "current_ruc".toList

def COMPANY_LOGO_KEY : Str := "company_logos".toList

def API_BASE_URL : Str := "http://localhost:3001/api".toList

def TARGET_APP_URL : Str := "http://localhost:3000".toList

/- zod error messages used by `authSchema` (both variants). -/

def msgRucLen : Str := "El RUC debe tener 11 dígitos".toList

def msgRucNum : Str := "El RUC solo debe contener números".toList

def msgRucNotFound : Str := "RUC no encontrado en el sistema".toList

def msgEmailInvalid : Str := "Ingresa un email válido".toList

def msgEmailMax : Str := "String must contain at most 255 character(s)".toList

def msgPasswordMin : Str := "La contraseña debe tener al menos 6 caracteres".toList

def msgPasswordMax : Str := "String must contain at most 100 character(s)".toList

/-- The issue list produced by the `ruc` field of `authSchema` on the
already-trimmed value `t`: zod runs the `.min(11)`, `.max(11)` and
`.regex(/^\d+$/)` checks in order, collecting every failure
(`.trim()` transformed the input before these checks). -/
def zodRucIssues (t : Str) : List Str :=
  (if jsLength t < 11 then [msgRucLen] else [])
    ++ (if 11 < jsLength t then [msgRucLen] else [])
    ++ (if rucRegex t then [] else [msgRucNum])

/-- `validateForm` of the single-field variant: `authSchema.safeParse({ruc})`,
then on failure each issue overwrites `fieldErrors.ruc`, so the recorded
message is the last issue; on success the errors are cleared.
Returns (success flag, recorded `ruc` field error). -/
def validateForm (ruc : Str) : Bool × Option Str :=
  let issues := zodRucIssues (jsTrim ruc)
  (issues.isEmpty, issues.getLast?)

/-- The RUC input `onChange` handler:
`e.target.value.replace(/\D/g, '').slice(0, 11)` — keep only ASCII digits,
then truncate to the first 11. (After the replace every remaining character
is a single UTF-16 code unit, so code-unit `slice` equals `take`.) -/
def sanitizeRuc (v : Str) : Str :=
  (v.filter Char.isDigit).take 11

/- ===== API interaction model ===== -/

/-- A toast notification as issued through `useToast`. -/
structure Toast where
  title : Str
  description : Str
  destructive : Bool
  deriving DecidableEq

/-- The JSON body of an error response, as read by `validateRucWithAPI`:
only the `message` field is consulted, and it may be absent. -/
structure ErrorBody where
  message : Option Str
  deriving DecidableEq

/-- Outcome of the `fetch` call in `validateRucWithAPI`:
either an HTTP response arrived (`status`, plus the result of parsing the
body as JSON — `none` when `response.json()` rejects), or the fetch itself
failed (network error). -/
inductive FetchOutcome where
  | response (status : Nat) (body : Option ErrorBody)
  | networkFailure
  deriving DecidableEq

/-- JS `Response.ok`: status in the inclusive range 200–299. -/
def respOk (status : Nat) : Bool :=
  200 ≤ status && status ≤ 299

/-- Everything `validateRucWithAPI` does besides returning its boolean:
the inline field error it sets (if any), the replacement it installs for
`availableRucs` (if any), and the toast it shows (if any). -/
structure ApiResult where
  ok : Bool
  fieldErr : Option Str
  rucsUpdate : Option (List Str)
  toastMsg : Option Toast
  deriving DecidableEq

def connErrorToast : Toast :=
  { title := "Error de conexión".toList,
    description :=
      "No se pudo conectar con el servidor. Verifica que la API esté corriendo en el puerto 3001.".toList,
    destructive := true }

/-- Result of `validateRucWithAPI` whenever control reaches the `catch`
block: `false`, plus only the generic connection-error toast. -/
def genericFailure : ApiResult :=
  { ok := false, fieldErr := none, rucsUpdate := none,
    toastMsg := some connErrorToast }

def rucInvalidTitle : Str := "RUC no válido".toList

def rucInvalidDefaultDesc : Str :=
  "El RUC ingresado no está registrado en el sistema.".toList

/-- `errorData.message || default`: JS `||` falls through on `undefined`
and on the empty string. -/
def toastDescription (m : Option Str) : Str :=
  match m with
  | some msg => if msg.isEmpty then rucInvalidDefaultDesc else msg
  | none => rucInvalidDefaultDesc

def rucsLabel : Str := "RUCs permitidos: ".toList

/-- Character class `[\d, ]` of the extraction regex. -/
def isRucsChar (c : Char) : Bool :=
  c.isDigit || c == ',' || c == ' '

def leadsWith : Str → Str → Bool
  | [], _ => true
  | _ :: _, [] => false
  | p :: ps, c :: cs => (p == c) && leadsWith ps cs

/-- The JS match `m.match(/RUCs permitidos: ([\d, ]+)/)`: search left to
right for the first position where the literal label is followed by at
least one character of the class `[\d, ]`; the capture is the maximal such
run (greedy `+` with nothing after it). Returns capture group 1. -/
def matchCapture : Str → Option Str
  | [] => none
  | c :: rest =>
    if leadsWith rucsLabel (c :: rest) then
      let run := ((c :: rest).drop rucsLabel.length).takeWhile isRucsChar
      if run.isEmpty then matchCapture rest else some run
    else matchCapture rest

/-- JS `s.split(', ')`: split on each left-to-right non-overlapping
occurrence of the two-character separator. -/
def splitCS : Str → List Str
  | [] => [[]]
  | ',' :: ' ' :: rest => [] :: splitCS rest
  | c :: rest =>
    match splitCS rest with
    | [] => [[c]]
    | h :: t => (c :: h) :: t

/-- The `availableRucs` value computed in the 400 branch from an optional
`message` field: `match[1].split(', ').map(r => r.trim())` when the regex
matches, nothing otherwise. -/
def extractRucs (m : Option Str) : Option (List Str) :=
  match m with
  | none => none
  | some msg => (matchCapture msg).map (fun cap => (splitCS cap).map jsTrim)

/-- `validateRucWithAPI`, as a function of the fetch outcome.
`response.ok` ⇒ true with no side effects; status 400 with a parseable
body ⇒ extract permitted RUCs from the message, set the inline field
error, show a destructive toast, return false; any other outcome (network
failure, unparseable 400 body, other statuses) reaches the `catch` block:
generic connection-error toast and false. -/
def validateRucWithAPI : FetchOutcome → ApiResult
  | FetchOutcome.networkFailure => genericFailure
  | FetchOutcome.response status body =>
    if respOk status then
      { ok := true, fieldErr := none, rucsUpdate := none, toastMsg := none }
    else if status = 400 then
      match body with
      | none => genericFailure
      | some b =>
        { ok := false,
          fieldErr := some msgRucNotFound,
          rucsUpdate := extractRucs b.message,
          toastMsg := some { title := rucInvalidTitle,
                             description := toastDescription b.message,
                             destructive := true } }
    else genericFailure

/- ===== Submit handler model ===== -/

/-- The component state touched by `handleSubmit`, plus the browser's
local storage (a key-to-value map). -/
structure AuthState where
  ruc : Str
  rememberRuc : Bool
  isLoading : Bool
  rucError : Option Str
  availableRucs : List Str
  storage : Str → Option Str

/-- `localStorage.setItem`. -/
def setItem (st : Str → Option Str) (k v : Str) : Str → Option Str :=
  fun q => if q = k then some v else st q

/-- `localStorage.removeItem`. -/
def removeItem (st : Str → Option Str) (k : Str) : Str → Option Str :=
  fun q => if q = k then none else st q

/-- Observable actions of a submission, in program order. -/
inductive Event where
  | setLoading (b : Bool)
  | fetchRequest (ruc : Str)
  | storageSet (key value : Str)
  | storageRemove (key : Str)
  | showToast (t : Toast)
  | redirect (url : Str)
  deriving DecidableEq

def Event.isStorageOp : Event → Bool
  | Event.storageSet _ _ => true
  | Event.storageRemove _ => true
  | _ => false

/-- The state right after `setIsLoading(true); setAvailableRucs([])`
(client-side validation has already cleared the errors). -/
def inFlightState (s : AuthState) : AuthState :=
  { s with rucError := none, isLoading := true, availableRucs := [] }

/-- `disabled={isLoading}` on the submit `Button`. -/
def submitDisabled (s : AuthState) : Bool := s.isLoading

/-- `disabled={isLoading}` on the RUC `Input`. -/
def rucInputDisabled (s : AuthState) : Bool := s.isLoading

/-- Fold the state updates made inside `validateRucWithAPI`
(`setAvailableRucs`, `setErrors`) into the component state. -/
def applyApi (s : AuthState) (r : ApiResult) : AuthState :=
  { s with
    availableRucs := r.rucsUpdate.getD s.availableRucs,
    rucError := match r.fieldErr with
      | some e => some e
      | none => s.rucError }

def welcomeToast : Toast :=
  { title := "¡Bienvenido!".toList,
    description := "RUC validado correctamente. Redirigiendo...".toList,
    destructive := false }

/-- `TARGET_APP_URL?ruc=ruc`, the redirect target. -/
def redirectUrl (ruc : Str) : Str :=
  TARGET_APP_URL ++ "?ruc=".toList ++ ruc

/-- `handleSubmit` of the single-field variant, with the outcome of the
(single) fetch supplied as a parameter. Returns the final state and the
trace of observable events in program order. If client-side validation
fails it returns at once (only the field error is recorded); otherwise it
sets the loading flag, clears the suggestions, issues the request, and on
acceptance writes local storage, toasts and redirects, while on rejection
it resets the loading flag. -/
def handleSubmit (s : AuthState) (resp : FetchOutcome) : AuthState × List Event :=
  let v := validateForm s.ruc
  if v.1 then
    let s1 := inFlightState s
    let api := validateRucWithAPI resp
    let s2 := applyApi s1 api
    let evs := [Event.setLoading true, Event.fetchRequest s.ruc]
      ++ (match api.toastMsg with
          | some t => [Event.showToast t]
          | none => [])
    if api.ok then
      let st1 := setItem s2.storage CURRENT_RUC_KEY s.ruc
      let st2 := if s.rememberRuc then setItem st1 RUC_STORAGE_KEY s.ruc
                 else removeItem st1 RUC_STORAGE_KEY
      ({ s2 with storage := st2 },
       evs ++ [Event.storageSet CURRENT_RUC_KEY s.ruc]
           ++ (if s.rememberRuc then [Event.storageSet RUC_STORAGE_KEY s.ruc]
               else [Event.storageRemove RUC_STORAGE_KEY])
           ++ [Event.showToast welcomeToast,
               Event.redirect (redirectUrl s.ruc)])
    else
      ({ s2 with isLoading := false }, evs ++ [Event.setLoading false])
  else
    ({ s with rucError := v.2 }, [])

/- ===== Full-form variant (second `Auth.tsx` component) ===== -/

/-- Field errors of the full-form variant. -/
structure FullErrors where
  ruc : Option Str
  email : Option Str
  password : Option Str
  deriving DecidableEq

/-- Issue list of the `email` field on the already-trimmed value:
`.email()` (zod's email well-formedness test, supplied as the parameter
`emailCk` since it is library-internal) then `.max(255)`. -/
def zodEmailIssues (emailCk : Str → Bool) (t : Str) : List Str :=
  (if emailCk t then [] else [msgEmailInvalid])
    ++ (if jsLength t ≤ 255 then [] else [msgEmailMax])

/-- Issue list of the `password` field: `.min(6)` then `.max(100)`. -/
def zodPasswordIssues (p : Str) : List Str :=
  (if jsLength p < 6 then [msgPasswordMin] else [])
    ++ (if jsLength p ≤ 100 then [] else [msgPasswordMax])

/-- `validateForm` of the full-form variant: parse all three fields,
collecting every issue; on failure each issue overwrites its own field's
error, so each field records the last message of its own issue list. -/
def validateFormFull (emailCk : Str → Bool) (ruc email pw : Str) :
    Bool × FullErrors :=
  let ri := zodRucIssues (jsTrim ruc)
  let ei := zodEmailIssues emailCk (jsTrim email)
  let pwi := zodPasswordIssues pw
  (ri.isEmpty && ei.isEmpty && pwi.isEmpty,
   { ruc := ri.getLast?, email := ei.getLast?, password := pwi.getLast? })

/- ===== Helper lemmas ===== -/

theorem digit_toNat_lt (c : Char) (h : c.isDigit = true) : c.toNat < 65536 := by
  simp [Char.isDigit] at h
  have : c.val.toNat ≤ 57 := by exact_mod_cast h.2
  simp [Char.toNat]
  omega

theorem jsLength_of_digits (t : Str) (h : t.all Char.isDigit = true) :
    jsLength t = t.length := by
  induction t with
  | nil => rfl
  | cons c cs ih =>
    simp only [List.all_cons, Bool.and_eq_true] at h
    have hc := digit_toNat_lt c h.1
    have := ih h.2
    simp only [jsLength, List.map_cons, List.sum_cons, List.length_cons] at this ⊢
    rw [if_pos hc]
    omega

theorem zodRucIssues_empty_iff (t : Str) :
    (zodRucIssues t).isEmpty = true ↔ (jsLength t = 11 ∧ rucRegex t = true) := by
  unfold zodRucIssues
  by_cases h1 : jsLength t < 11 <;> by_cases h2 : 11 < jsLength t <;>
    by_cases h3 : rucRegex t = true <;>
    simp [h1, h2, h3] <;> omega

theorem zodRucIssues_last_num (t : Str) (h : rucRegex t = false) :
    (zodRucIssues t).getLast? = some msgRucNum := by
  unfold zodRucIssues
  rw [h]
  by_cases h1 : jsLength t < 11 <;> by_cases h2 : 11 < jsLength t <;>
    simp [h1, h2]

theorem zodRucIssues_last_len (t : Str) (h : rucRegex t = true)
    (h2 : jsLength t ≠ 11) : (zodRucIssues t).getLast? = some msgRucLen := by
  unfold zodRucIssues
  rw [h]
  rcases Nat.lt_or_ge (jsLength t) 11 with hlt | hge
  · have : ¬ 11 < jsLength t := by omega
    simp [hlt, this]
  · have hgt : 11 < jsLength t := by omega
    have : ¬ jsLength t < 11 := by omega
    simp [this, hgt]

/- ===== Claim theorems ===== -/

/-- C1: the client-side RUC field validation (`validateForm` applying
`authSchema`) succeeds if and only if the input, after trimming leading
and trailing whitespace, is exactly 11 characters, all decimal digits;
on any other input it fails and records the corresponding RUC field error
message (the digits-only message when the trimmed value fails the digit
regex, otherwise the 11-digits length message). -/
theorem c1_ruc_validation (s : Str) :
    ((validateForm s).1 = true ↔
      ((jsTrim s).length = 11 ∧ (jsTrim s).all Char.isDigit = true))
    ∧ (rucRegex (jsTrim s) = false → (validateForm s).2 = some msgRucNum)
    ∧ (rucRegex (jsTrim s) = true → (jsTrim s).length ≠ 11 →
        (validateForm s).2 = some msgRucLen) := by
  refine ⟨?_, ?_, ?_⟩
  · rw [show (validateForm s).1 = (zodRucIssues (jsTrim s)).isEmpty from rfl,
      zodRucIssues_empty_iff]
    constructor
    · rintro ⟨hlen, hreg⟩
      simp only [rucRegex, Bool.and_eq_true, Bool.not_eq_true'] at hreg
      refine ⟨?_, hreg.2⟩
      rw [← jsLength_of_digits _ hreg.2]
      exact hlen
    · rintro ⟨hlen, hdig⟩
      have hne : (jsTrim s) ≠ [] := by
        intro h
        rw [h] at hlen
        simp at hlen
      refine ⟨by rw [jsLength_of_digits _ hdig]; exact hlen, ?_⟩
      simp [rucRegex, hdig, List.isEmpty_iff, hne]
  · intro h
    exact zodRucIssues_last_num (jsTrim s) h
  · intro h hlen
    have hdig : (jsTrim s).all Char.isDigit = true := by
      simp only [rucRegex, Bool.and_eq_true] at h
      exact h.2
    refine zodRucIssues_last_len (jsTrim s) h ?_
    rw [jsLength_of_digits _ hdig]
    exact hlen

/-- Witness for C1 at concrete inputs: `"12a45678901"` fails the digit
regex and records the digits-only message. -/
theorem c1_ruc_validation_witness :
    (validateForm ("12a45678901".toList)).2 = some msgRucNum :=
  (c1_ruc_validation ("12a45678901".toList)).2.1 (by decide)

/-- C2: the RUC `onChange` handler stores the input with all non-digits
removed, truncated to 11 characters; the stored value is always at most
11 characters, all digits, and a digit-only string of length at most 11
is stored unchanged. -/
theorem c2_ruc_sanitization (v : Str) :
    (sanitizeRuc v).length ≤ 11
    ∧ (sanitizeRuc v).all Char.isDigit = true
    ∧ (v.all Char.isDigit = true → v.length ≤ 11 → sanitizeRuc v = v) := by
  refine ⟨?_, ?_, ?_⟩
  · simp [sanitizeRuc]
  · simp only [sanitizeRuc, List.all_eq_true]
    intro a ha
    exact List.of_mem_filter (List.mem_of_mem_take ha)
  · intro hdig hlen
    unfold sanitizeRuc
    rw [List.filter_eq_self.mpr, List.take_of_length_le hlen]
    simpa [List.all_eq_true] using hdig

/-- Witness for C2: the digit-only input `"123"` is stored unchanged. -/
theorem c2_ruc_sanitization_witness :
    sanitizeRuc ("123".toList) = ("123".toList) :=
  (c2_ruc_sanitization ("123".toList)).2.2 (by decide) (by decide)

/-- C10: the RUC input sanitization is idempotent: applying it twice
yields the same result as applying it once. -/
theorem c10_sanitize_idempotent (s : Str) :
    sanitizeRuc (sanitizeRuc s) = sanitizeRuc s := by
  have h : ∀ a ∈ (s.filter Char.isDigit).take 11, Char.isDigit a = true :=
    fun a ha => List.of_mem_filter (List.mem_of_mem_take ha)
  unfold sanitizeRuc
  rw [List.filter_eq_self.mpr h, List.take_take, Nat.min_self]

theorem leadsWith_decomp (p : Str) : ∀ s : Str, leadsWith p s = true →
    s = p ++ s.drop p.length := by
  induction p with
  | nil => intro s _; simp
  | cons a ps ih =>
    intro s h
    cases s with
    | nil => simp [leadsWith] at h
    | cons c cs =>
      simp only [leadsWith, Bool.and_eq_true, beq_iff_eq] at h
      obtain ⟨h1, h2⟩ := h
      have := ih cs h2
      simp only [List.length_cons, List.cons_append, List.drop_succ_cons]
      rw [h1, ← this]

theorem matchCapture_decomp (m : Str) : ∀ cap : Str, matchCapture m = some cap →
    ∃ a b, m = a ++ rucsLabel ++ cap ++ b ∧ cap ≠ [] ∧
      cap.all isRucsChar = true := by
  induction m with
  | nil => intro cap h; simp [matchCapture] at h
  | cons c rest ih =>
    intro cap h
    simp only [matchCapture] at h
    by_cases hl : leadsWith rucsLabel (c :: rest) = true
    · rw [if_pos hl] at h
      by_cases hr :
          (((c :: rest).drop rucsLabel.length).takeWhile isRucsChar).isEmpty = true
      · rw [if_pos hr] at h
        obtain ⟨a, b, hab, hne, hall⟩ := ih cap h
        exact ⟨c :: a, b, by simp [hab], hne, hall⟩
      · rw [if_neg hr] at h
        have hcap : cap = ((c :: rest).drop rucsLabel.length).takeWhile isRucsChar :=
          (Option.some.injEq _ _ ▸ h).symm
        refine ⟨[], ((c :: rest).drop rucsLabel.length).dropWhile isRucsChar, ?_, ?_, ?_⟩
        · have hd := leadsWith_decomp rucsLabel (c :: rest) hl
          rw [List.nil_append, hcap]
          rw [List.append_assoc,
            List.takeWhile_append_dropWhile isRucsChar ((c :: rest).drop rucsLabel.length)]
          exact hd
        · intro hnil
          rw [hcap] at hnil
          simp [hnil] at hr
        · rw [hcap]
          simp [List.all_eq_true]
    · rw [if_neg hl] at h
      obtain ⟨a, b, hab, hne, hall⟩ := ih cap h
      exact ⟨c :: a, b, by simp [hab], hne, hall⟩

/-- C4: a 400 response with a parseable body makes `validateRucWithAPI`
return false, set the inline RUC field error, and show a destructive
toast; whenever the body's `message` contains a substring matching
`RUCs permitidos: ` followed by digits, commas and spaces, the available
RUCs are set to the captured text split on `', '` with each element
trimmed (the decomposition conjunct exhibits the capture as such a
substring). -/
theorem c4_bad_request (b : ErrorBody) :
    (validateRucWithAPI (FetchOutcome.response 400 (some b))).ok = false
    ∧ (validateRucWithAPI (FetchOutcome.response 400 (some b))).fieldErr
        = some msgRucNotFound
    ∧ (∃ t, (validateRucWithAPI (FetchOutcome.response 400 (some b))).toastMsg
          = some t ∧ t.destructive = true ∧ t.title = rucInvalidTitle)
    ∧ (∀ m cap, b.message = some m → matchCapture m = some cap →
        (validateRucWithAPI (FetchOutcome.response 400 (some b))).rucsUpdate
            = some ((splitCS cap).map jsTrim)
        ∧ ∃ a₂ b₂, m = a₂ ++ rucsLabel ++ cap ++ b₂ ∧ cap ≠ []
            ∧ cap.all isRucsChar = true) := by
  have hok : respOk 400 = false := by decide
  refine ⟨by simp [validateRucWithAPI, hok], by simp [validateRucWithAPI, hok],
    ⟨{ title := rucInvalidTitle, description := toastDescription b.message,
       destructive := true },
      by simp [validateRucWithAPI, hok], rfl, rfl⟩, ?_⟩
  intro m cap hm hmc
  refine ⟨?_, matchCapture_decomp m cap hmc⟩
  simp [validateRucWithAPI, hok, extractRucs, hm, hmc]

/-- Witness for C4: a 400 body whose message embeds
`RUCs permitidos: 123, 456` yields the suggestion list `["123", "456"]`. -/
theorem c4_bad_request_witness :
    (validateRucWithAPI (FetchOutcome.response 400
        (some { message := some ("error. RUCs permitidos: 123, 456".toList) }))).rucsUpdate
      = some [("123".toList), ("456".toList)] := by
  have h := ((c4_bad_request
      { message := some ("error. RUCs permitidos: 123, 456".toList) }).2.2.2
    ("error. RUCs permitidos: 123, 456".toList) ("123, 456".toList)
    rfl (by decide)).1
  exact h.trans (by decide)

/-- C5: every outcome other than a 2xx success or a parseable 400 —
network failure, a non-400 failure status, or a 400 whose body does not
parse — makes `validateRucWithAPI` return false with exactly the generic
connection-error toast (no field error, no suggestion-list update). -/
theorem c5_generic_failure :
    validateRucWithAPI FetchOutcome.networkFailure = genericFailure
    ∧ (∀ status body, respOk status = false → status ≠ 400 →
        validateRucWithAPI (FetchOutcome.response status body) = genericFailure)
    ∧ validateRucWithAPI (FetchOutcome.response 400 none) = genericFailure
    ∧ genericFailure.ok = false
    ∧ genericFailure.toastMsg = some connErrorToast
    ∧ genericFailure.fieldErr = none
    ∧ genericFailure.rucsUpdate = none := by
  refine ⟨rfl, ?_, by decide, rfl, rfl, rfl, rfl⟩
  intro status body h1 h2
  simp [validateRucWithAPI, h1, h2]

/-- Witness for C5: a 500 response is treated as a generic failure. -/
theorem c5_generic_failure_witness :
    validateRucWithAPI (FetchOutcome.response 500 none) = genericFailure :=
  c5_generic_failure.2.1 500 none (by decide) (by decide)

/-- A concrete component state with a valid RUC, used by the witnesses. -/
def sampleState : AuthState :=
  { ruc := "20123456789".toList, rememberRuc := true, isLoading := false,
    rucError := none, availableRucs := [], storage := fun _ => none }

/-- A concrete component state whose RUC fails client-side validation. -/
def badRucState : AuthState :=
  { sampleState with ruc := "123".toList }

/-- C3: when the validation request comes back with status 200,
`validateRucWithAPI` returns true and `handleSubmit` ends by redirecting
to the target application URL with the submitted RUC as the `ruc` query
parameter. -/
theorem c3_success_redirect (s : AuthState) (body : Option ErrorBody)
    (hv : (validateForm s.ruc).1 = true) :
    (validateRucWithAPI (FetchOutcome.response 200 body)).ok = true
    ∧ (handleSubmit s (FetchOutcome.response 200 body)).2.getLast?
        = some (Event.redirect (TARGET_APP_URL ++ "?ruc=".toList ++ s.ruc)) := by
  have hok : (validateRucWithAPI (FetchOutcome.response 200 body)).ok = true := rfl
  have htoast : (validateRucWithAPI (FetchOutcome.response 200 body)).toastMsg
      = none := rfl
  refine ⟨hok, ?_⟩
  cases hrem : s.rememberRuc <;>
    simp [handleSubmit, hv, hok, htoast, hrem, redirectUrl]

/-- Witness for C3 at the sample state. -/
theorem c3_success_redirect_witness :
    (validateRucWithAPI (FetchOutcome.response 200 none)).ok = true
    ∧ (handleSubmit sampleState (FetchOutcome.response 200 none)).2.getLast?
        = some (Event.redirect (TARGET_APP_URL ++ "?ruc=".toList
            ++ sampleState.ruc)) :=
  c3_success_redirect sampleState none (by decide)

/-- C6: on a submission that passes client-side validation and whose RUC
the API accepts, `remembered_ruc` is set to the submitted RUC when the
remember checkbox is checked and removed when it is unchecked. -/
theorem c6_remember_preference (s : AuthState) (resp : FetchOutcome)
    (hv : (validateForm s.ruc).1 = true)
    (ha : (validateRucWithAPI resp).ok = true) :
    (handleSubmit s resp).1.storage RUC_STORAGE_KEY
      = (if s.rememberRuc then some s.ruc else none) := by
  cases hrem : s.rememberRuc <;>
    cases ht : (validateRucWithAPI resp).toastMsg <;>
      simp [handleSubmit, hv, ha, ht, hrem, setItem, removeItem]

/-- Witness for C6: sample state with the checkbox checked. -/
theorem c6_remember_preference_witness :
    (handleSubmit sampleState (FetchOutcome.response 200 none)).1.storage
        RUC_STORAGE_KEY
      = (if sampleState.rememberRuc then some sampleState.ruc else none) :=
  c6_remember_preference sampleState (FetchOutcome.response 200 none)
    (by decide) (by decide)

/-- C7: validation gating and the loading flag. If client-side validation
fails the handler produces no events at all (no request, no storage write,
no loading change) and leaves the loading flag and storage untouched; if
it passes, the very first events are setting the loading flag and issuing
the request, in that order; the submit button and the RUC input are
disabled in the in-flight state; and when the API validation fails the
loading flag is reset to false, re-enabling the form. -/
theorem c7_loading_discipline (s : AuthState) (resp : FetchOutcome) :
    ((validateForm s.ruc).1 = false →
        (handleSubmit s resp).2 = []
        ∧ (handleSubmit s resp).1.isLoading = s.isLoading
        ∧ (handleSubmit s resp).1.storage = s.storage)
    ∧ ((validateForm s.ruc).1 = true →
        ∃ rest, (handleSubmit s resp).2
          = Event.setLoading true :: Event.fetchRequest s.ruc :: rest)
    ∧ submitDisabled (inFlightState s) = true
    ∧ rucInputDisabled (inFlightState s) = true
    ∧ ((validateForm s.ruc).1 = true → (validateRucWithAPI resp).ok = false →
        (handleSubmit s resp).1.isLoading = false
        ∧ submitDisabled (handleSubmit s resp).1 = false) := by
  refine ⟨?_, ?_, rfl, rfl, ?_⟩
  · intro h
    simp [handleSubmit, h]
  · intro hv
    cases hok : (validateRucWithAPI resp).ok <;>
      cases ht : (validateRucWithAPI resp).toastMsg <;>
        cases hrem : s.rememberRuc <;>
          simp [handleSubmit, hv, hok, ht, hrem]
  · intro hv hok
    cases ht : (validateRucWithAPI resp).toastMsg <;>
      simp [handleSubmit, hv, hok, ht, submitDisabled]

/-- Witness for C7: a failing RUC produces no events; a valid RUC leads
with the loading flag and the request, and a network failure resets the
loading flag. -/
theorem c7_loading_discipline_witness :
    (handleSubmit badRucState FetchOutcome.networkFailure).2 = []
    ∧ (∃ rest, (handleSubmit sampleState FetchOutcome.networkFailure).2
        = Event.setLoading true :: Event.fetchRequest sampleState.ruc :: rest)
    ∧ (handleSubmit sampleState FetchOutcome.networkFailure).1.isLoading
        = false :=
  ⟨((c7_loading_discipline badRucState FetchOutcome.networkFailure).1
      (by decide)).1,
   (c7_loading_discipline sampleState FetchOutcome.networkFailure).2.1
      (by decide),
   ((c7_loading_discipline sampleState FetchOutcome.networkFailure).2.2.2.2
      (by decide) (by decide)).1⟩

/-- C9: `current_ruc` is written exactly when the API validation of the
submitted RUC succeeds. On a submission where client-side validation or
the API validation fails, `handleSubmit` performs no storage operation at
all and leaves the storage map (hence `current_ruc`, `remembered_ruc` and
`company_logos`) unchanged; on success it stores the submitted RUC under
`current_ruc`. -/
theorem c9_current_ruc_exactly_on_success (s : AuthState) (resp : FetchOutcome) :
    (((validateForm s.ruc).1 = false ∨ (validateRucWithAPI resp).ok = false) →
        (handleSubmit s resp).1.storage = s.storage
        ∧ ∀ e ∈ (handleSubmit s resp).2, e.isStorageOp = false)
    ∧ ((validateForm s.ruc).1 = true → (validateRucWithAPI resp).ok = true →
        (handleSubmit s resp).1.storage CURRENT_RUC_KEY = some s.ruc) := by
  constructor
  · intro h
    by_cases hv : (validateForm s.ruc).1 = true
    · have ha : (validateRucWithAPI resp).ok = false := by
        rcases h with h | h
        · rw [hv] at h; cases h
        · exact h
      cases ht : (validateRucWithAPI resp).toastMsg with
      | none =>
        refine ⟨by simp [handleSubmit, hv, ha, ht, applyApi, inFlightState], ?_⟩
        intro e he
        simp [handleSubmit, hv, ha, ht] at he
        rcases he with rfl | rfl | rfl <;> rfl
      | some t =>
        refine ⟨by simp [handleSubmit, hv, ha, ht, applyApi, inFlightState], ?_⟩
        intro e he
        simp [handleSubmit, hv, ha, ht] at he
        rcases he with rfl | rfl | rfl | rfl <;> rfl
    · have hv' : (validateForm s.ruc).1 = false := by
        cases hb : (validateForm s.ruc).1
        · rfl
        · exact absurd hb hv
      refine ⟨by simp [handleSubmit, hv'], ?_⟩
      intro e he
      simp [handleSubmit, hv'] at he
  · intro hv ha
    have hkeys : CURRENT_RUC_KEY ≠ RUC_STORAGE_KEY := by decide
    cases hrem : s.rememberRuc <;>
      cases ht : (validateRucWithAPI resp).toastMsg <;>
        simp [handleSubmit, hv, ha, ht, hrem, setItem, removeItem, hkeys]

/-- Witness for C9: at the sample state, a rejected RUC leaves storage
unchanged and an accepted RUC stores it under `current_ruc`. -/
theorem c9_current_ruc_exactly_on_success_witness :
    (handleSubmit sampleState (FetchOutcome.response 500 none)).1.storage
        = sampleState.storage
    ∧ (handleSubmit sampleState (FetchOutcome.response 200 none)).1.storage
        CURRENT_RUC_KEY = some sampleState.ruc :=
  ⟨((c9_current_ruc_exactly_on_success sampleState
      (FetchOutcome.response 500 none)).1 (Or.inr (by decide))).1,
   (c9_current_ruc_exactly_on_success sampleState
      (FetchOutcome.response 200 none)).2 (by decide) (by decide)⟩

theorem zodRucIssues_empty_iff_chars (t : Str) :
    (zodRucIssues t).isEmpty = true ↔
      (t.length = 11 ∧ t.all Char.isDigit = true) := by
  rw [zodRucIssues_empty_iff]
  constructor
  · rintro ⟨hlen, hreg⟩
    simp only [rucRegex, Bool.and_eq_true, Bool.not_eq_true'] at hreg
    exact ⟨by rw [← jsLength_of_digits _ hreg.2]; exact hlen, hreg.2⟩
  · rintro ⟨hlen, hdig⟩
    have hne : t ≠ [] := by
      intro h
      rw [h] at hlen
      simp at hlen
    exact ⟨by rw [jsLength_of_digits _ hdig]; exact hlen,
      by simp [rucRegex, hdig, List.isEmpty_iff, hne]⟩

theorem zodEmailIssues_empty_iff (ck : Str → Bool) (t : Str) :
    (zodEmailIssues ck t).isEmpty = true ↔
      (ck t = true ∧ jsLength t ≤ 255) := by
  unfold zodEmailIssues
  by_cases h1 : ck t = true <;> by_cases h2 : jsLength t ≤ 255 <;>
    simp [h1, h2]

theorem zodPasswordIssues_empty_iff (p : Str) :
    (zodPasswordIssues p).isEmpty = true ↔
      (6 ≤ jsLength p ∧ jsLength p ≤ 100) := by
  unfold zodPasswordIssues
  by_cases h1 : jsLength p < 6 <;> by_cases h2 : jsLength p ≤ 100 <;>
    simp [h1, h2] <;> omega

theorem getLast?_ne_none_of_not_isEmpty {α : Type} (l : List α)
    (h : l.isEmpty = false) : l.getLast? ≠ none := by
  cases l with
  | nil => simp at h
  | cons a t =>
    simp [List.getLast?_eq_none_iff]

/-- C8: in the full auth form variant, validation succeeds if and only if
the trimmed RUC is exactly 11 decimal digits, the trimmed email passes
zod's email well-formedness test (`emailCk`, a parameter because the test
lives inside the zod library) and is at most 255 characters long, and the
password is between 6 and 100 characters; each failing field records its
own inline error message. -/
theorem c8_full_form_validation (emailCk : Str → Bool) (ruc email pw : Str) :
    ((validateFormFull emailCk ruc email pw).1 = true ↔
      ((jsTrim ruc).length = 11 ∧ (jsTrim ruc).all Char.isDigit = true
        ∧ emailCk (jsTrim email) = true ∧ jsLength (jsTrim email) ≤ 255
        ∧ 6 ≤ jsLength pw ∧ jsLength pw ≤ 100))
    ∧ (¬((jsTrim ruc).length = 11 ∧ (jsTrim ruc).all Char.isDigit = true) →
        (validateFormFull emailCk ruc email pw).2.ruc ≠ none)
    ∧ (¬(emailCk (jsTrim email) = true ∧ jsLength (jsTrim email) ≤ 255) →
        (validateFormFull emailCk ruc email pw).2.email ≠ none)
    ∧ (¬(6 ≤ jsLength pw ∧ jsLength pw ≤ 100) →
        (validateFormFull emailCk ruc email pw).2.password ≠ none) := by
  refine ⟨?_, ?_, ?_, ?_⟩
  · show ((zodRucIssues (jsTrim ruc)).isEmpty
        && (zodEmailIssues emailCk (jsTrim email)).isEmpty
        && (zodPasswordIssues pw).isEmpty) = true ↔ _
    rw [Bool.and_eq_true, Bool.and_eq_true]
    rw [zodRucIssues_empty_iff_chars, zodEmailIssues_empty_iff,
      zodPasswordIssues_empty_iff]
    tauto
  · intro h
    have : (zodRucIssues (jsTrim ruc)).isEmpty = false := by
      cases hb : (zodRucIssues (jsTrim ruc)).isEmpty
      · rfl
      · exact absurd ((zodRucIssues_empty_iff_chars (jsTrim ruc)).mp hb) h
    exact getLast?_ne_none_of_not_isEmpty _ this
  · intro h
    have : (zodEmailIssues emailCk (jsTrim email)).isEmpty = false := by
      cases hb : (zodEmailIssues emailCk (jsTrim email)).isEmpty
      · rfl
      · exact absurd ((zodEmailIssues_empty_iff emailCk (jsTrim email)).mp hb) h
    exact getLast?_ne_none_of_not_isEmpty _ this
  · intro h
    have : (zodPasswordIssues pw).isEmpty = false := by
      cases hb : (zodPasswordIssues pw).isEmpty
      · rfl
      · exact absurd ((zodPasswordIssues_empty_iff pw).mp hb) h
    exact getLast?_ne_none_of_not_isEmpty _ this

/-- Witness for C8: a concrete email test, valid triple, and a
too-short-password triple recording a password error. -/
theorem c8_full_form_validation_witness :
    (validateFormFull (fun t => t.contains '@') ("20123456789".toList)
        ("a@b.co".toList) ("secret123".toList)).1 = true
    ∧ (validateFormFull (fun t => t.contains '@') ("20123456789".toList)
        ("a@b.co".toList) ("abc".toList)).2.password ≠ none :=
  ⟨(c8_full_form_validation (fun t => t.contains '@') ("20123456789".toList)
      ("a@b.co".toList) ("secret123".toList)).1.mpr (by decide),
   (c8_full_form_validation (fun t => t.contains '@') ("20123456789".toList)
      ("a@b.co".toList) ("abc".toList)).2.2.2 (by decide)⟩
